import Mathlib

/-!
Verification of the vuexpress server-side rendering orchestrator
(`src/renderer/renderer.js`) against its natural-language specification.

The embedding models: JS objects as association lists, the process-wide
runtime-class state (plugin registry, memoized class reference), the
`getVueClass` resolution algorithm split at its suspension point, component
resolution with async-data merging, the string/stream rendering paths, the
head/tail template assembly, and the stream transform (the latter and the
error classes are modelled from the spec, since `src/renderer/transform.js`
and `src/error` are not among the provided sources).
-/

/-- A JS primitive value stored in an object field. -/
inductive Val
  | vStr (s : String)
  | vNum (n : Int)
  | vBool (b : Bool)
deriving DecidableEq

/-- A JS object, modelled as an association list of fields (insertion order). -/
abbrev Obj := List (String × Val)

/-- Property read `o[k]`: first entry with the key, `none` when absent. -/
def objGet (o : Obj) (k : String) : Option Val :=
  match o with
  | [] => none
  | (k', v) :: rest => if k' = k then some v else objGet rest k

/-- Property write `o[k] = v`: overwrite an existing key, else append. -/
def objSet (o : Obj) (k : String) (v : Val) : Obj :=
  if o.any (fun kv => kv.1 = k) then
    o.map (fun kv => if kv.1 = k then (k, v) else kv)
  else
    o ++ [(k, v)]

/-- `Object.assign({}, a, b)`: copy `a`, then assign every field of `b` over it
(later sources win on key collisions). -/
def objAssign (a b : Obj) : Obj :=
  b.foldl (fun acc kv => objSet acc kv.1 kv.2) a

/-- The metadata bundle `component.$meta().inject()` (external vue-meta
collaborator), reduced to the pre-serialized `.text()` fragments that
`getTemplateHtml` reads; `scriptBodyText` is `script.text({body: true})`. -/
structure MetaInject where
  titleText : String
  htmlAttrsText : String
  bodyAttrsText : String
  linkText : String
  styleText : String
  scriptText : String
  scriptBodyText : String
  noscriptText : String
  metaText : String
deriving DecidableEq

/-- The `{head, tail}` template-fragment pair. -/
structure TemplateHtml where
  head : String
  tail : String
deriving DecidableEq

/-- `Renderer.getTemplateHtml` (renderer.js lines 207-229): assembles the two
document fragments from the injected metadata.  The `state` and `globalVars`
parameters appear in the source signature but are not referenced in its body. -/
def getTemplateHtml (m : MetaInject) (state : Obj) (globalVars : Obj) : TemplateHtml :=
  { head := "<!DOCTYPE html>\n<html " ++ m.htmlAttrsText ++ ">\n<head>\n"
      ++ m.metaText ++ "\n" ++ m.titleText ++ "\n" ++ m.linkText ++ "\n"
      ++ m.styleText ++ "\n" ++ m.scriptText ++ "\n" ++ m.noscriptText
      ++ "\n</head>\n<body " ++ m.bodyAttrsText ++ ">\n  "
    tail := "\n" ++ m.scriptBodyText ++ "</body>\n</html>" }

/-- The `options` argument of `renderToString`/`renderToStream`:
`url` is `none` when the property is absent (JS `undefined`). -/
structure RenderOpts where
  url : Option String
  plain : Bool
deriving DecidableEq

/-- The per-request render context; `url` is `none` when it is `undefined`. -/
structure RContext where
  state : Obj
  url : Option String
deriving DecidableEq

/-- Context construction shared by `renderToString` and `renderToStream`
(renderer.js lines 145-148 and 174-177):
`{state: state || {}, url: options ? options.url : '/'}`. -/
def mkContext (stateArg : Option Obj) (opts : Option RenderOpts) : RContext :=
  { state := stateArg.getD []
    url := match opts with
           | none => some "/"
           | some o => o.url }

/-- The context construction as the spec words it:
`{state: state ?? {}, url: options?.url ?? '/'}` (optional chaining plus
nullish coalescing, so a present `options` without `url` still yields `/`).
Written from the spec for comparison with `mkContext`. -/
def mkContextSpec (stateArg : Option Obj) (opts : Option RenderOpts) : RContext :=
  { state := stateArg.getD []
    url := some ((opts.bind RenderOpts.url).getD "/") }

/-- `options && options.plain` (renderer.js lines 149 and 178). -/
def isPlainOpt (opts : Option RenderOpts) : Bool :=
  match opts with
  | none => false
  | some o => o.plain

/-- Modelled from the spec: the error taxonomy of `src/error` (not among the
provided sources).  Spec section 7 names three kinds — base error (wraps a
startup-precompilation failure), compiler error (raised by the module loader,
passed through unchanged on a render stream), render error (any other
streaming failure, annotated with component path and request state).  Every
kind carries the assignable `.component` field; only render errors carry the
`.state` field the code assigns. -/
inductive JsError
  | baseError (inner : JsError) (component : Option String)
  | compilerError (msg : String) (component : Option String)
  | renderError (inner : JsError) (component : Option String) (state : Option Obj)
  | generic (msg : String) (component : Option String)
deriving DecidableEq

/-- `e instanceof ErrorTypes.CompilerError` (renderer.js line 155). -/
def isCompilerError : JsError → Bool
  | .compilerError _ _ => true
  | _ => false

/-- The mutation `e.component = path` (renderer.js line 182). -/
def setComponent (e : JsError) (path : String) : JsError :=
  match e with
  | .baseError i _ => .baseError i (some path)
  | .compilerError m _ => .compilerError m (some path)
  | .renderError i _ s => .renderError i (some path) s
  | .generic m _ => .generic m (some path)

/-- The body-stream `error` listener's classification (renderer.js lines
153-162): a compiler error is kept unchanged, anything else is wrapped in
`new ErrorTypes.RenderError(e)` with `error.component = path` and
`error.state = state`. -/
def classifyStreamError (path : String) (stateArg : Option Obj) (e : JsError) : JsError :=
  if isCompilerError e then e else .renderError e (some path) stateArg

/-- The observable settlement of a JS promise: resolved, rejected, or never
settled (pending forever). -/
inductive POutcome (α : Type)
  | resolved (a : α)
  | rejected (e : JsError)
  | pending
deriving DecidableEq

/-- A loaded plugin module: its own identity, the identity of its `default`
property when present, and whether that `default` has an `install` member
(renderer.js lines 79-83 and 95-99 probe exactly these). -/
structure PluginMod where
  selfId : Nat
  dfltId : Option Nat
  dfltHasInstall : Bool
deriving DecidableEq

/-- The value handed to `Vue.use`: `plugin.default && plugin.default.install`
selects `plugin.default`, anything else installs the module value itself. -/
def useTarget (m : PluginMod) : Nat :=
  match m.dfltId with
  | some d => if m.dfltHasInstall then d else m.selfId
  | none => m.selfId

/-- An entry of `options.plugins`: an already-loaded plugin value, or a module
path string (`typeof plugin === 'string'`). -/
inductive PluginEntry
  | value (m : PluginMod)
  | path (p : String)
deriving DecidableEq

/-- The string-valued plugin entries, in configuration order. -/
def stringPlugins (plugins : List PluginEntry) : List String :=
  plugins.filterMap (fun e => match e with | .path p => some p | .value _ => none)

/-- The already-loaded plugin entries, in configuration order. -/
def valuePlugins (plugins : List PluginEntry) : List PluginMod :=
  plugins.filterMap (fun e => match e with | .value m => some m | .path _ => none)

/-- The process-wide state of the shared runtime class: the registry of
installed plugin identities, the log of actual install invocations (one entry
each time an install function really runs), and the log of every `Vue.use`
call made (deduplicated or not). -/
structure VueState where
  installed : List Nat
  log : List Nat
  useCalls : List Nat
deriving DecidableEq

/-- `Vue.use(x)`: the runtime's registration is idempotent per plugin identity
(spec section 3 invariant: a plugin is installed at most once per process
lifetime; re-registration of an already-installed plugin is a no-op). -/
def vueUse (v : VueState) (x : Nat) : VueState :=
  if x ∈ v.installed then
    { v with useCalls := v.useCalls ++ [x] }
  else
    { installed := v.installed ++ [x], log := v.log ++ [x]
      useCalls := v.useCalls ++ [x] }

/-- Install a list of values through `Vue.use`, taking each one's target. -/
def vueUseAll {α : Type} (f : α → Nat) (ms : List α) (v : VueState) : VueState :=
  ms.foldl (fun v m => vueUse v (f m)) v

/-- Identities of the three plugins registered at module load
(renderer.js lines 11-19: vue-meta, the SSR plugin, vuex). -/
def metaPluginId : Nat := 100

/-- Identity of the SSR plugin registered at module load. -/
def ssrPluginId : Nat := 101

/-- Identity of vuex registered at module load. -/
def vuexPluginId : Nat := 102

/-- The runtime-class state after module load: the three boot plugins are
already registered. -/
def vueBoot : VueState :=
  vueUse (vueUse (vueUse { installed := [], log := [], useCalls := [] }
    metaPluginId) ssrPluginId) vuexPluginId

/-- `RendererOptions` after the constructor's merge with the defaults. -/
structure RendererOptions where
  head : Obj
  plugins : List PluginEntry
  preCompile : List String
  globals : Obj
deriving DecidableEq

/-- The user-supplied options object; `none` marks an absent property. -/
structure UserOptions where
  head : Option Obj
  plugins : Option (List PluginEntry)
  preCompile : Option (List String)
  globals : Option Obj
deriving DecidableEq

/-- `Object.assign({}, defaultRendererOptions, options)` (renderer.js line 40)
with the defaults of lines 21-26 (empty head, plugins, preCompile, globals). -/
def assignOptions (u : UserOptions) : RendererOptions :=
  { head := u.head.getD []
    plugins := u.plugins.getD []
    preCompile := u.preCompile.getD []
    globals := u.globals.getD [] }

/-- The synchronous effect of `init()` on the options (renderer.js lines
50-56): collect the string-valued plugins and push them onto
`this.options.preCompile`. -/
def initPush (o : RendererOptions) : RendererOptions :=
  { o with preCompile := o.preCompile ++ stringPlugins o.plugins }

/-- The mutable per-renderer state: the options object, the `this.Vue`
memoization flag, and the process-wide runtime-class state. -/
structure RState where
  options : RendererOptions
  memoVue : Bool
  vue : VueState
deriving DecidableEq

/-- The renderer state right after `new Renderer(compiler, options)`:
options merged with defaults, then `init()`'s synchronous push has run
(the constructor calls `init()` at line 41); no class memoized yet. -/
def newRenderer (u : UserOptions) : RState :=
  { options := initPush (assignOptions u), memoVue := false, vue := vueBoot }

/-- What the synchronous part of `getVueClass()` does before any suspension:
return the memoized class, resolve directly after installing only loaded
values, or suspend on the compiler imports of the collected paths. -/
inductive Phase1Out
  | memoHit
  | doneNoStrings
  | suspended (paths : List String)
deriving DecidableEq

/-- The synchronous segment of `getVueClass()` (renderer.js lines 72-91):
memo check; one pass over `options.plugins` collecting string paths and
installing loaded values in configuration order; if no paths were collected,
memoize and resolve, otherwise suspend on the parallel imports. -/
def getVueClassPhase1 (s : RState) : RState × Phase1Out :=
  if s.memoVue then (s, .memoHit)
  else
    let s1 := { s with vue := vueUseAll useTarget (valuePlugins s.options.plugins) s.vue }
    let paths := stringPlugins s.options.plugins
    if paths.isEmpty then ({ s1 with memoVue := true }, .doneNoStrings)
    else (s1, .suspended paths)

/-- `Promise.all` over promises carrying a completion time: it resolves with
the results in input order, regardless of the completion times (JS
semantics).  The `Nat` is the completion time and is discarded. -/
def promiseAll {α : Type} (ps : List (α × Nat)) : List α :=
  ps.map Prod.fst

/-- The continuation of `getVueClass()` after `Promise.all` of the compiler
imports resolves (renderer.js lines 91-103): install each imported module in
the order `Promise.all` delivered them, then memoize the class. -/
def getVueClassPhase2 (compiler : String → PluginMod) (resolveTime : String → Nat)
    (paths : List String) (s : RState) : RState :=
  let mods := promiseAll (paths.map (fun p => (compiler p, resolveTime p)))
  let s1 := { s with vue := vueUseAll useTarget mods s.vue }
  { s1 with memoVue := true }

/-- An atomic scheduler event: the synchronous part of an `init()` call, the
synchronous part of a `getVueClass()` call, or the import continuation of a
suspended `getVueClass()` call.  JS is single-threaded, so an execution is a
sequence of these atomic segments. -/
inductive REv
  | evInit
  | evP1
  | evP2 (paths : List String)
deriving DecidableEq

/-- One atomic step of the renderer. -/
def rstep (compiler : String → PluginMod) (resolveTime : String → Nat)
    (s : RState) (e : REv) : RState :=
  match e with
  | .evInit => { s with options := initPush s.options }
  | .evP1 => (getVueClassPhase1 s).1
  | .evP2 paths => getVueClassPhase2 compiler resolveTime paths s

/-- Run a sequence of atomic events (an interleaving of concurrent calls). -/
def runEvents (compiler : String → PluginMod) (resolveTime : String → Nat)
    (s : RState) (evs : List REv) : RState :=
  evs.foldl (rstep compiler resolveTime) s

/-- Stable insertion of a path into a list sorted by completion time. -/
def insertByTime (resolveTime : String → Nat) (p : String) : List String → List String
  | [] => [p]
  | q :: qs => if resolveTime p < resolveTime q then p :: q :: qs
               else q :: insertByTime resolveTime p qs

/-- Paths reordered by completion time (earliest completion first). -/
def sortByTime (resolveTime : String → Nat) (ps : List String) : List String :=
  ps.foldr (insertByTime resolveTime) []

/-- The install order the spec asserts (written from the spec's words, for
comparison): loaded values in configuration order, then the imported plugins
"in the order the import results return resolved". -/
def installSeqClaim (compiler : String → PluginMod) (resolveTime : String → Nat)
    (plugins : List PluginEntry) : List Nat :=
  (valuePlugins plugins).map useTarget
    ++ (sortByTime resolveTime (stringPlugins plugins)).map
        (fun p => useTarget (compiler p))

deriving instance DecidableEq for Except

/-- The component options used to instantiate the target component: its
static `data` option, and its optional `asyncData` function, modelled by the
eventual settlement of the promise that calling it returns. -/
structure VueOptionsT where
  data : Obj
  asyncData : Option (Except JsError Obj)
deriving DecidableEq

/-- The constructed component instance: its options, the `$context` seeded by
`Object.assign({}, VueOptions, {$context: context})`, its `_data`, and the
metadata its `$meta().inject()` produces after render. -/
structure Component where
  opts : VueOptionsT
  context : RContext
  dataField : Obj
  meta : MetaInject
deriving DecidableEq

/-- `new VueClass(SSRVueOptions)` (renderer.js lines 119-120). -/
def buildComponent (vo : VueOptionsT) (context : RContext) (meta : MetaInject) : Component :=
  { opts := vo, context := context, dataField := vo.data, meta := meta }

/-- A module export, unwrapped by `object.default || object`
(renderer.js line 117). -/
structure ModuleExport where
  dflt : Option VueOptionsT
  self : VueOptionsT
deriving DecidableEq

/-- `object.default || object`. -/
def unwrapModule (m : ModuleExport) : VueOptionsT :=
  m.dflt.getD m.self

/-- The observable result of the readiness phase of `getComponent`: how the
returned promise settles, and any rejection left unhandled on a side chain. -/
structure GetComponentRun where
  outcome : POutcome Component
  unhandled : Option JsError
deriving DecidableEq

/-- The readiness phase of `getComponent` (renderer.js lines 118-131): build
the instance; with no `asyncData` resolve immediately with it; with an
`asyncData` that resolves, assign
`component._data = Object.assign({}, component.$options.data, data)` and
resolve; with an `asyncData` that rejects, the executor
`new Promise((resolve) => { ... })` wires no rejection path, so the outer
promise never settles and the rejection is left unhandled. -/
def getComponentOutcome (vo : VueOptionsT) (context : RContext)
    (meta : MetaInject) : GetComponentRun :=
  let c := buildComponent vo context meta
  match vo.asyncData with
  | none => { outcome := .resolved c, unhandled := none }
  | some (.ok d) =>
      { outcome := .resolved { c with dataField := objAssign c.opts.data d }
        unhandled := none }
  | some (.error e) => { outcome := .pending, unhandled := some e }

/-- The value `renderToStream`'s promise resolves with: the raw body stream
(plain), or the body piped through the head/tail transform. -/
inductive StreamVal
  | body
  | transformed (head tail : String)
deriving DecidableEq

/-- The observable result of a `renderToStream` call: the promise settlement
and the `error` events emitted on the renderer. -/
structure StreamOutcome where
  outcome : POutcome StreamVal
  events : List JsError
deriving DecidableEq

/-- `Renderer.renderToStream` (renderer.js lines 144-170): build the context;
if the component promise never settles or rejects, so does this call; once
the body stream exists, every error the stream later emits is classified and
emitted on the renderer (the promise has already resolved); plain calls
resolve with the raw stream, others with the transform configured from
`getTemplateHtml`.  `streamErrors` is the sequence of errors the body stream
emits after the call resolved. -/
def renderToStreamModel (path : String) (stateArg : Option Obj)
    (opts : Option RenderOpts) (globals : Obj)
    (compOut : POutcome Component) (streamErrors : List JsError) : StreamOutcome :=
  let context := mkContext stateArg opts
  match compOut with
  | .pending => { outcome := .pending, events := [] }
  | .rejected e => { outcome := .rejected e, events := [] }
  | .resolved c =>
      let events := streamErrors.map (classifyStreamError path stateArg)
      if isPlainOpt opts then { outcome := .resolved .body, events := events }
      else
        let tpl := getTemplateHtml c.meta context.state globals
        { outcome := .resolved (.transformed tpl.head tpl.tail), events := events }

/-- `Renderer.renderToString` (renderer.js lines 173-196): build the context;
propagate a pending/rejected component promise; on a render-primitive error
annotate it with `e.component = path` and reject; on success resolve with the
raw body (plain) or with `head ++ body ++ tail` from `getTemplateHtml`.
`renderRes` is the settlement of the render primitive's callback. -/
def renderToStringModel (path : String) (stateArg : Option Obj)
    (opts : Option RenderOpts) (globals : Obj)
    (compOut : POutcome Component) (renderRes : Except JsError String) : POutcome String :=
  let context := mkContext stateArg opts
  match compOut with
  | .pending => .pending
  | .rejected e => .rejected e
  | .resolved c =>
      match renderRes with
      | .error e => .rejected (setComponent e path)
      | .ok body =>
          if isPlainOpt opts then .resolved body
          else
            let tpl := getTemplateHtml c.meta context.state globals
            .resolved (tpl.head ++ body ++ tpl.tail)

/-- An upstream event seen by the stream transform: a data chunk, a clean
end-of-stream, or an upstream error. -/
inductive UpEvent
  | chunk (s : String)
  | endOk
  | fail
deriving DecidableEq

/-- The transform's state: whether the head fragment went out, the chunks
emitted so far, whether an upstream error was forwarded, and whether the
transform signalled its own completion. -/
structure TransState where
  headSent : Bool
  out : List String
  errored : Bool
  closed : Bool
deriving DecidableEq

/-- Modelled from the spec: `src/renderer/transform.js` is not among the
provided sources.  Spec sections 4.4 and 9: before passing through the first
chunk it receives, the transform emits the configured head fragment; chunks
pass through unmodified and in order; on a clean end-of-stream it emits the
tail fragment and completes; on an upstream error it forwards the error and
never emits the tail. -/
def transStep (head tail : String) (t : TransState) (e : UpEvent) : TransState :=
  if t.closed ∨ t.errored then t
  else
    match e with
    | .chunk c =>
        if t.headSent then { t with out := t.out ++ [c] }
        else { t with headSent := true, out := t.out ++ [head, c] }
    | .endOk => { t with out := t.out ++ [tail], closed := true }
    | .fail => { t with errored := true }

/-- The transform's initial state. -/
def transInit : TransState :=
  { headSent := false, out := [], errored := false, closed := false }

/-- Run the transform over a whole upstream event sequence. -/
def transRun (head tail : String) (evs : List UpEvent) : TransState :=
  evs.foldl (transStep head tail) transInit

/-- The registry invariant: the install log never repeats a plugin identity,
and every logged install is registered. -/
def VueInv (v : VueState) : Prop :=
  v.log.Nodup ∧ ∀ x ∈ v.log, x ∈ v.installed

/-- A concrete compiler used in counterexamples and witnesses. -/
def compilerEx : String → PluginMod :=
  fun p => if p = "a" then { selfId := 1, dfltId := none, dfltHasInstall := false }
           else { selfId := 2, dfltId := none, dfltHasInstall := false }

/-- Concrete import-completion times: the import of "a" finishes after "b". -/
def rtEx : String → Nat :=
  fun p => if p = "a" then 2 else 1

/-- A concrete plugin configuration with two string paths. -/
def pluginsEx : List PluginEntry :=
  [PluginEntry.path "a", PluginEntry.path "b"]

/-- Concrete user options carrying `pluginsEx`. -/
def uEx : UserOptions :=
  { head := none, plugins := some pluginsEx, preCompile := none, globals := none }

/-- A renderer state whose class reference is already memoized. -/
def memoStateEx : RState :=
  { options := assignOptions { head := none, plugins := none, preCompile := none, globals := none }
    memoVue := true, vue := vueBoot }

/-- Concrete options with one string plugin and an empty preCompile list. -/
def optsMutEx : RendererOptions :=
  { head := [], plugins := [PluginEntry.path "p"], preCompile := [], globals := [] }

/-- Concrete render options that are present but carry no `url` property. -/
def optsNoUrlEx : RenderOpts :=
  { url := none, plain := true }

/-- A concrete metadata bundle with empty fragments. -/
def metaEx : MetaInject :=
  { titleText := "", htmlAttrsText := "", bodyAttrsText := "", linkText := ""
    styleText := "", scriptText := "", scriptBodyText := "", noscriptText := ""
    metaText := "" }

/-- A concrete render context. -/
def ctxEx : RContext := mkContext none none

/-- A concrete component instance. -/
def compEx : Component :=
  buildComponent { data := [], asyncData := none } ctxEx metaEx

/-- A concrete failure delivered by a rejecting async-data function. -/
def e0Ex : JsError := JsError.generic "asyncData failed" none

/-- Component options whose async-data function rejects with `e0Ex`. -/
def voErrEx : VueOptionsT :=
  { data := [("b", Val.vNum 2)], asyncData := some (Except.error e0Ex) }

/-- Component options with static data `{b: 2}` and async data `{a: 1}`. -/
def voOkEx : VueOptionsT :=
  { data := [("b", Val.vNum 2)], asyncData := some (Except.ok [("a", Val.vNum 1)]) }

/-- The component `voOkEx` yields once its async data is merged. -/
def compMergedEx : Component :=
  { buildComponent voOkEx ctxEx metaEx with
      dataField := objAssign voOkEx.data [("a", Val.vNum 1)] }

/-- Strings are equal when their character data is equal. -/
theorem strExt {a b : String} (h : a.data = b.data) : a = b :=
  String.ext h

/-- The first segment of `getVueClassPhase1` never changes the options. -/
theorem getVueClassPhase1_options (s : RState) :
    (getVueClassPhase1 s).1.options = s.options := by
  unfold getVueClassPhase1
  split
  · rfl
  · dsimp only
    split <;> rfl

/-- When the class is not yet memoized, the synchronous segment of
`getVueClass` installs exactly the loaded plugin values. -/
theorem getVueClassPhase1_vue (s : RState) (h : s.memoVue = false) :
    (getVueClassPhase1 s).1.vue
      = vueUseAll useTarget (valuePlugins s.options.plugins) s.vue := by
  unfold getVueClassPhase1
  simp only [h, Bool.false_eq_true, if_false]
  split <;> rfl

/-- A non-`evInit` step never changes the options. -/
theorem rstep_options (compiler : String → PluginMod) (rt : String → Nat)
    (s : RState) (e : REv) (h : e ≠ REv.evInit) :
    (rstep compiler rt s e).options = s.options := by
  cases e with
  | evInit => exact absurd rfl h
  | evP1 => exact getVueClassPhase1_options s
  | evP2 paths => rfl

/-- C10: the output of the template-assembly function `getTemplateHtml`
depends only on the metadata bundle: two calls with the same bundle and
different state/globals return identical head and tail fragments. -/
theorem getTemplateHtml_state_independent :
    ∀ (m : MetaInject) (s1 s2 g1 g2 : Obj),
      getTemplateHtml m s1 g1 = getTemplateHtml m s2 g2 :=
  fun _ _ _ _ _ => rfl

/-- C8 counterexample: with an options object present but carrying no `url`
property, the code leaves the context url undefined instead of defaulting it
to "/", so the context differs from `{state: state ?? {}, url: options?.url
?? '/'}`. -/
theorem context_url_ce :
    (mkContext (some []) (some optsNoUrlEx)).url ≠ some "/"
    ∧ mkContext (some []) (some optsNoUrlEx)
        ≠ mkContextSpec (some []) (some optsNoUrlEx) := by
  decide

/-- C8 amended: the context is `{state: state || {}, url: options ?
options.url : '/'}` — state defaults to the empty mapping when absent, url
defaults to "/" only when the whole options argument is absent, and a present
options contributes its `url` verbatim (undefined when absent); this
coincides with `options?.url ?? '/'` exactly when options is absent or
carries a url. -/
theorem context_construction_amended :
    ∀ (s : Option Obj) (o : Option RenderOpts),
      (mkContext s o).state = s.getD []
      ∧ (o = none → (mkContext s o).url = some "/")
      ∧ (∀ r, o = some r → (mkContext s o).url = r.url)
      ∧ ((o = none ∨ (o.bind RenderOpts.url).isSome = true) →
          mkContext s o = mkContextSpec s o) := by
  intro s o
  refine ⟨rfl, ?_, ?_, ?_⟩
  · intro h
    subst h
    rfl
  · intro r hr
    subst hr
    rfl
  · intro h
    cases o with
    | none => rfl
    | some r =>
        have h' : r.url.isSome = true := by
          rcases h with h | h
          · exact absurd h (by simp)
          · simpa using h
        cases hu : r.url with
        | none => rw [hu] at h'; simp at h'
        | some u => simp [mkContext, mkContextSpec, hu]

/-- C8 witness: the amended statement at concrete inputs. -/
theorem context_construction_amended_witness :
    (mkContext none none).url = some "/"
    ∧ mkContext (some []) (some { url := some "/x", plain := false })
        = mkContextSpec (some []) (some { url := some "/x", plain := false }) :=
  ⟨(context_construction_amended none none).2.1 rfl,
   (context_construction_amended (some []) (some { url := some "/x", plain := false })).2.2.2
     (Or.inr rfl)⟩

/-- C9 counterexample: `init()` mutates the options — it pushes the
string-valued plugin paths onto `options.preCompile`, so the options object
after `init` differs from the one before. -/
theorem init_mutates_options_ce : initPush optsMutEx ≠ optsMutEx := by
  decide

/-- C9 amended: `init` (run during construction) appends exactly the
string-valued plugin identifiers to `options.preCompile`, leaving the other
fields unchanged and establishing the invariant that `preCompile` contains
every string-valued plugin; apart from `init`, no operation modifies the
options. -/
theorem options_quiescent_after_init :
    ∀ (o : RendererOptions),
      ((initPush o).preCompile = o.preCompile ++ stringPlugins o.plugins
       ∧ (initPush o).plugins = o.plugins
       ∧ (initPush o).head = o.head
       ∧ (initPush o).globals = o.globals
       ∧ ∀ p ∈ stringPlugins o.plugins, p ∈ (initPush o).preCompile)
      ∧ ∀ (compiler : String → PluginMod) (rt : String → Nat)
          (s : RState) (evs : List REv),
          REv.evInit ∉ evs → (runEvents compiler rt s evs).options = s.options := by
  intro o
  constructor
  · refine ⟨rfl, rfl, rfl, rfl, ?_⟩
    intro p hp
    exact List.mem_append_right _ hp
  · intro compiler rt s evs
    induction evs generalizing s with
    | nil => intro _; rfl
    | cons e evs ih =>
        intro h
        have he : e ≠ REv.evInit := fun hh => h (hh ▸ List.mem_cons_self e evs)
        have hevs : REv.evInit ∉ evs := fun hh => h (List.mem_cons_of_mem e hh)
        calc (runEvents compiler rt s (e :: evs)).options
            = (runEvents compiler rt (rstep compiler rt s e) evs).options := rfl
          _ = (rstep compiler rt s e).options := ih _ hevs
          _ = s.options := rstep_options compiler rt s e he

/-- C9 witness: the amended statement at concrete inputs. -/
theorem options_quiescent_after_init_witness :
    (initPush optsMutEx).preCompile
        = optsMutEx.preCompile ++ stringPlugins optsMutEx.plugins
    ∧ "p" ∈ (initPush optsMutEx).preCompile
    ∧ (runEvents compilerEx rtEx (newRenderer uEx) [REv.evP1]).options
        = (newRenderer uEx).options :=
  ⟨(options_quiescent_after_init optsMutEx).1.1,
   (options_quiescent_after_init optsMutEx).1.2.2.2.2 "p" (by decide),
   (options_quiescent_after_init optsMutEx).2 compilerEx rtEx (newRenderer uEx)
     [REv.evP1] (by decide)⟩

/-- Rewriting the entries holding key `k` does not change reads of other keys. -/
theorem objGet_map_set_ne (o : Obj) (k : String) (v : Val) (k' : String)
    (hne : k' ≠ k) :
    objGet (o.map fun kv => if kv.1 = k then (k, v) else kv) k' = objGet o k' := by
  induction o with
  | nil => rfl
  | cons kv rest ih =>
      obtain ⟨k0, v0⟩ := kv
      dsimp only [List.map_cons]
      by_cases h0 : k0 = k
      · subst h0
        rw [if_pos rfl]
        have hkk' : ¬ k0 = k' := fun hh => hne hh.symm
        simp only [objGet, if_neg hkk']
        exact ih
      · rw [if_neg h0]
        simp only [objGet]
        by_cases h1 : k0 = k'
        · simp [h1]
        · simp [h1, ih]

/-- Rewriting the entries holding key `k` makes reads of `k` return the new
value, provided some entry holds `k`. -/
theorem objGet_map_set_eq (o : Obj) (k : String) (v : Val)
    (hmem : o.any (fun kv => kv.1 = k) = true) :
    objGet (o.map fun kv => if kv.1 = k then (k, v) else kv) k = some v := by
  induction o with
  | nil => simp at hmem
  | cons kv rest ih =>
      obtain ⟨k0, v0⟩ := kv
      dsimp only [List.map_cons]
      by_cases h0 : k0 = k
      · rw [if_pos h0]
        simp [objGet]
      · rw [if_neg h0]
        have hmem' : rest.any (fun kv => kv.1 = k) = true := by
          simpa [h0] using hmem
        simp only [objGet, if_neg h0]
        exact ih hmem'

/-- Reads of a key no entry holds return `none`. -/
theorem objGet_none_of_not_any (o : Obj) (k : String)
    (h : o.any (fun kv => kv.1 = k) = false) : objGet o k = none := by
  induction o with
  | nil => rfl
  | cons kv rest ih =>
      obtain ⟨k0, v0⟩ := kv
      have h0 : ¬ k0 = k := by
        intro hh
        simp [hh] at h
      have h' : rest.any (fun kv => kv.1 = k) = false := by
        simpa [h0] using h
      simp only [objGet, if_neg h0]
      exact ih h'

/-- Reads over a concatenation try the left object first. -/
theorem objGet_append (a b : Obj) (k : String) :
    objGet (a ++ b) k = (objGet a k).orElse (fun _ => objGet b k) := by
  induction a with
  | nil => simp [objGet, Option.orElse]
  | cons kv rest ih =>
      obtain ⟨k0, v0⟩ := kv
      simp only [List.cons_append, objGet]
      by_cases h0 : k0 = k
      · simp [h0, Option.orElse]
      · simp [h0, ih]

/-- Characterization of a single property write. -/
theorem objGet_objSet (o : Obj) (k : String) (v : Val) (k' : String) :
    objGet (objSet o k v) k' = if k' = k then some v else objGet o k' := by
  unfold objSet
  by_cases hmem : o.any (fun kv => kv.1 = k) = true
  · rw [if_pos hmem]
    by_cases hk : k' = k
    · subst hk
      rw [if_pos rfl]
      exact objGet_map_set_eq o k' v hmem
    · rw [if_neg hk]
      exact objGet_map_set_ne o k v k' hk
  · rw [if_neg hmem]
    have hfalse : o.any (fun kv => kv.1 = k) = false := by
      cases hh : o.any (fun kv => kv.1 = k) with
      | false => rfl
      | true => exact absurd hh hmem
    rw [objGet_append]
    by_cases hk : k' = k
    · subst hk
      rw [if_pos rfl, objGet_none_of_not_any o k' hfalse]
      simp [objGet, Option.orElse]
    · rw [if_neg hk]
      have hsingle : objGet [(k, v)] k' = none := by
        have : ¬ k = k' := fun hh => hk hh.symm
        simp [objGet, this]
      rw [hsingle]
      cases objGet o k' <;> simp [Option.orElse]

/-- Reads of a key outside an object's key set return `none`. -/
theorem objGet_none_of_not_mem_keys (o : Obj) (k : String)
    (h : k ∉ o.map Prod.fst) : objGet o k = none := by
  induction o with
  | nil => rfl
  | cons kv rest ih =>
      obtain ⟨k0, v0⟩ := kv
      have h0 : ¬ k0 = k := by
        intro hh
        exact h (by simp [hh])
      have h' : k ∉ rest.map Prod.fst := fun hh => h (by simp [hh])
      simp only [objGet, if_neg h0]
      exact ih h'

/-- `Object.assign({}, a, b)` reads like `b` first, then `a`, when `b` has no
duplicate keys (a JS object never does). -/
theorem objGet_objAssign (a b : Obj) (k : String)
    (hnd : (b.map Prod.fst).Nodup) :
    objGet (objAssign a b) k = (objGet b k).orElse (fun _ => objGet a k) := by
  induction b generalizing a with
  | nil => simp [objAssign, objGet, Option.orElse]
  | cons kv bs ih =>
      obtain ⟨k0, v0⟩ := kv
      rw [List.map_cons] at hnd
      have hcons := List.nodup_cons.mp hnd
      have hstep : objAssign a ((k0, v0) :: bs) = objAssign (objSet a k0 v0) bs := rfl
      rw [hstep, ih (objSet a k0 v0) hcons.2]
      by_cases hk : k = k0
      · subst hk
        have hbs : objGet bs k = none :=
          objGet_none_of_not_mem_keys bs k hcons.1
        rw [hbs, objGet_objSet]
        simp [objGet, Option.orElse]
      · rw [objGet_objSet, if_neg hk]
        have hhead : objGet ((k0, v0) :: bs) k = objGet bs k := by
          have : ¬ k0 = k := fun hh => hk hh.symm
          simp [objGet, this]
        rw [hhead]

/-- C5: a component with an async-data function resolving to `d` is ready
only once `d` is shallow-merged over the static `data` option, the async
value winning on key collisions; a component without one is ready immediately
with the constructed instance. -/
theorem getComponent_asyncData_merge :
    ∀ (vo : VueOptionsT) (ctx : RContext) (meta : MetaInject),
      (∀ d, vo.asyncData = some (Except.ok d) → (d.map Prod.fst).Nodup →
        (getComponentOutcome vo ctx meta).outcome
            = POutcome.resolved
                { buildComponent vo ctx meta with dataField := objAssign vo.data d }
        ∧ ∀ k, objGet (objAssign vo.data d) k
            = (objGet d k).orElse (fun _ => objGet vo.data k))
      ∧ (vo.asyncData = none →
        getComponentOutcome vo ctx meta
          = { outcome := POutcome.resolved (buildComponent vo ctx meta)
              unhandled := none }) := by
  intro vo ctx meta
  constructor
  · intro d hd hnd
    constructor
    · simp [getComponentOutcome, hd, buildComponent]
    · intro k
      exact objGet_objAssign vo.data d k hnd
  · intro h
    simp [getComponentOutcome, h]

/-- C5 witness: async data `{a: 1}` over static data `{b: 2}` yields instance
data `{a: 1, b: 2}`; a component without async data resolves as constructed. -/
theorem getComponent_asyncData_merge_witness :
    (getComponentOutcome voOkEx ctxEx metaEx).outcome = POutcome.resolved compMergedEx
    ∧ objGet compMergedEx.dataField "a" = some (Val.vNum 1)
    ∧ objGet compMergedEx.dataField "b" = some (Val.vNum 2)
    ∧ getComponentOutcome { data := [], asyncData := none } ctxEx metaEx
        = { outcome := POutcome.resolved (buildComponent { data := [], asyncData := none } ctxEx metaEx)
            unhandled := none } := by
  have h := (getComponent_asyncData_merge voOkEx ctxEx metaEx).1
    [("a", Val.vNum 1)] rfl (by decide)
  have h2 := (getComponent_asyncData_merge { data := [], asyncData := none } ctxEx metaEx).2 rfl
  exact ⟨h.1, by decide, by decide, h2⟩

/-- C6 counterexample: with an async-data function rejecting with `e0Ex`, the
`renderToString` promise does not reject with that failure — it never
settles at all (and the stream path behaves the same). -/
theorem asyncData_rejection_ce :
    renderToStringModel "p" none none []
        (getComponentOutcome voErrEx ctxEx metaEx).outcome (Except.ok "body")
      = POutcome.pending
    ∧ renderToStringModel "p" none none []
        (getComponentOutcome voErrEx ctxEx metaEx).outcome (Except.ok "body")
      ≠ POutcome.rejected e0Ex
    ∧ (renderToStreamModel "p" none none []
        (getComponentOutcome voErrEx ctxEx metaEx).outcome []).outcome
      ≠ POutcome.rejected e0Ex := by
  decide

/-- C6 amended: an async-data rejection is fatal to the render call in that
the call never completes — the promise returned by
`renderToString`/`renderToStream` never settles (the executor wires no
rejection path), and the failure surfaces only as an unhandled rejection. -/
theorem asyncData_rejection_pending :
    ∀ (path : String) (stateArg : Option Obj) (opts : Option RenderOpts)
      (globals : Obj) (vo : VueOptionsT) (ctx : RContext) (meta : MetaInject)
      (renderRes : Except JsError String) (streamErrors : List JsError)
      (e : JsError),
      vo.asyncData = some (Except.error e) →
      renderToStringModel path stateArg opts globals
          (getComponentOutcome vo ctx meta).outcome renderRes = POutcome.pending
      ∧ (renderToStreamModel path stateArg opts globals
          (getComponentOutcome vo ctx meta).outcome streamErrors).outcome
        = POutcome.pending
      ∧ (getComponentOutcome vo ctx meta).unhandled = some e := by
  intro path stateArg opts globals vo ctx meta renderRes streamErrors e h
  refine ⟨?_, ?_, ?_⟩ <;>
    simp [getComponentOutcome, h, renderToStringModel, renderToStreamModel]

/-- C6 witness: the amended statement at concrete inputs. -/
theorem asyncData_rejection_pending_witness :
    renderToStringModel "q" none none []
        (getComponentOutcome voErrEx ctxEx metaEx).outcome (Except.ok "x")
      = POutcome.pending
    ∧ (getComponentOutcome voErrEx ctxEx metaEx).unhandled = some e0Ex :=
  ⟨(asyncData_rejection_pending "q" none none [] voErrEx ctxEx metaEx
      (Except.ok "x") [] e0Ex rfl).1,
   (asyncData_rejection_pending "q" none none [] voErrEx ctxEx metaEx
      (Except.ok "x") [] e0Ex rfl).2.2⟩

/-- Every `Vue.use` call is appended to the call log. -/
theorem vueUse_useCalls (v : VueState) (x : Nat) :
    (vueUse v x).useCalls = v.useCalls ++ [x] := by
  unfold vueUse
  split <;> rfl

/-- Installing a batch appends its targets, in batch order, to the call log. -/
theorem vueUseAll_useCalls {α : Type} (f : α → Nat) (ms : List α) (v : VueState) :
    (vueUseAll f ms v).useCalls = v.useCalls ++ ms.map f := by
  induction ms generalizing v with
  | nil => simp [vueUseAll]
  | cons m ms ih =>
      have hstep : vueUseAll f (m :: ms) v = vueUseAll f ms (vueUse v (f m)) := rfl
      rw [hstep, ih, vueUse_useCalls]
      simp

/-- C7 counterexample: with the import of "a" completing after the import of
"b", the code still performs the `Vue.use` calls in configuration order, not
in the completion order the claim asserts. -/
theorem plugin_install_order_ce :
    (runEvents compilerEx rtEx (newRenderer uEx)
        [REv.evP1, REv.evP2 ["a", "b"]]).vue.useCalls
      ≠ vueBoot.useCalls ++ installSeqClaim compilerEx rtEx pluginsEx := by
  decide

/-- C7 amended: loaded plugin values are installed synchronously in
configuration order; the string paths are imported in parallel and installed
only after `Promise.all` resolves, in configuration order (`Promise.all`
preserves input order), independently of the import completion times. -/
theorem plugin_install_config_order :
    ∀ (compiler : String → PluginMod) (rt : String → Nat) (s : RState),
      s.memoVue = false →
      (runEvents compiler rt s
          [REv.evP1, REv.evP2 (stringPlugins s.options.plugins)]).vue.useCalls
        = s.vue.useCalls
            ++ (valuePlugins s.options.plugins).map useTarget
            ++ (stringPlugins s.options.plugins).map
                (fun p => useTarget (compiler p)) := by
  intro compiler rt s h
  have h1 : runEvents compiler rt s
      [REv.evP1, REv.evP2 (stringPlugins s.options.plugins)]
      = getVueClassPhase2 compiler rt (stringPlugins s.options.plugins)
          (getVueClassPhase1 s).1 := rfl
  rw [h1]
  unfold getVueClassPhase2
  dsimp only
  rw [vueUseAll_useCalls, getVueClassPhase1_vue s h, vueUseAll_useCalls]
  simp [promiseAll, List.map_map, Function.comp, List.append_assoc]

/-- C7 witness: the amended statement at concrete inputs. -/
theorem plugin_install_config_order_witness :
    (runEvents compilerEx rtEx (newRenderer uEx)
        [REv.evP1, REv.evP2 (stringPlugins (newRenderer uEx).options.plugins)]).vue.useCalls
      = (newRenderer uEx).vue.useCalls
          ++ (valuePlugins (newRenderer uEx).options.plugins).map useTarget
          ++ (stringPlugins (newRenderer uEx).options.plugins).map
              (fun p => useTarget (compilerEx p)) :=
  plugin_install_config_order compilerEx rtEx (newRenderer uEx) rfl

/-- C3: once the stream promise has resolved, body-stream errors never change
or reject it; each is emitted on the renderer, a structured compiler error
passing through unchanged and anything else wrapped in a render error whose
`component` is the path argument and whose `state` is the state argument. -/
theorem renderToStream_error_events :
    ∀ (path : String) (stateArg : Option Obj) (opts : Option RenderOpts)
      (globals : Obj) (c : Component) (streamErrors : List JsError),
      ((renderToStreamModel path stateArg opts globals
          (POutcome.resolved c) streamErrors).outcome
        = (renderToStreamModel path stateArg opts globals
            (POutcome.resolved c) []).outcome)
      ∧ (∀ e', (renderToStreamModel path stateArg opts globals
            (POutcome.resolved c) streamErrors).outcome ≠ POutcome.rejected e')
      ∧ ((renderToStreamModel path stateArg opts globals
            (POutcome.resolved c) streamErrors).events
          = streamErrors.map (classifyStreamError path stateArg))
      ∧ (∀ e, isCompilerError e = true →
          classifyStreamError path stateArg e = e)
      ∧ (∀ e, isCompilerError e = false →
          classifyStreamError path stateArg e
            = JsError.renderError e (some path) stateArg) := by
  intro path stateArg opts globals c streamErrors
  refine ⟨?_, ?_, ?_, ?_, ?_⟩
  · cases hp : isPlainOpt opts <;> simp [renderToStreamModel, hp]
  · intro e'
    cases hp : isPlainOpt opts <;> simp [renderToStreamModel, hp]
  · cases hp : isPlainOpt opts <;> simp [renderToStreamModel, hp]
  · intro e he
    simp [classifyStreamError, he]
  · intro e he
    simp [classifyStreamError, he]

/-- C3 witness: the statement at concrete inputs. -/
theorem renderToStream_error_events_witness :
    (renderToStreamModel "p" (some [("k", Val.vNum 7)]) none []
        (POutcome.resolved compEx) [JsError.generic "boom" none]).events
      = [JsError.renderError (JsError.generic "boom" none) (some "p")
          (some [("k", Val.vNum 7)])]
    ∧ classifyStreamError "p" none (JsError.compilerError "m" none)
        = JsError.compilerError "m" none
    ∧ (renderToStreamModel "p" none none []
        (POutcome.resolved compEx) [JsError.generic "x" none]).outcome
      ≠ POutcome.rejected e0Ex := by
  have h := renderToStream_error_events "p" (some [("k", Val.vNum 7)]) none []
    compEx [JsError.generic "boom" none]
  refine ⟨?_, ?_, ?_⟩
  · rw [h.2.2.1]
    decide
  · exact (renderToStream_error_events "p" none none [] compEx []).2.2.2.1
      (JsError.compilerError "m" none) rfl
  · exact (renderToStream_error_events "p" none none [] compEx
      [JsError.generic "x" none]).2.1 e0Ex

/-- `Vue.use` preserves the registry invariant: a re-registration is a no-op
and a fresh registration logs a not-yet-installed identity. -/
theorem vueUse_inv (v : VueState) (x : Nat) (h : VueInv v) : VueInv (vueUse v x) := by
  unfold vueUse
  split
  · exact h
  · next hx =>
      obtain ⟨hnd, hsub⟩ := h
      constructor
      · have hxlog : x ∉ v.log := fun hh => hx (hsub x hh)
        refine List.Nodup.append hnd (List.nodup_singleton x) ?_
        intro a ha hax
        have haeq : a = x := by simpa using hax
        exact hxlog (haeq ▸ ha)
      · intro y hy
        rcases List.mem_append.mp hy with hy | hy
        · exact List.mem_append_left _ (hsub y hy)
        · exact List.mem_append_right _ hy

/-- Batch installation preserves the registry invariant. -/
theorem vueUseAll_inv {α : Type} (f : α → Nat) (ms : List α) :
    ∀ v : VueState, VueInv v → VueInv (vueUseAll f ms v) := by
  induction ms with
  | nil => intro v h; exact h
  | cons m ms ih => intro v h; exact ih (vueUse v (f m)) (vueUse_inv v (f m) h)

/-- The synchronous segment of `getVueClass` preserves the invariant. -/
theorem getVueClassPhase1_inv (s : RState) (h : VueInv s.vue) :
    VueInv (getVueClassPhase1 s).1.vue := by
  cases hm : s.memoVue with
  | true =>
      have : getVueClassPhase1 s = (s, Phase1Out.memoHit) := by
        simp [getVueClassPhase1, hm]
      rw [this]
      exact h
  | false =>
      rw [getVueClassPhase1_vue s hm]
      exact vueUseAll_inv _ _ _ h

/-- The import continuation of `getVueClass` preserves the invariant. -/
theorem getVueClassPhase2_inv (compiler : String → PluginMod)
    (rt : String → Nat) (paths : List String) (s : RState)
    (h : VueInv s.vue) : VueInv (getVueClassPhase2 compiler rt paths s).vue := by
  unfold getVueClassPhase2
  exact vueUseAll_inv _ _ _ h

/-- Every atomic renderer step preserves the invariant. -/
theorem rstep_inv (compiler : String → PluginMod) (rt : String → Nat)
    (s : RState) (e : REv) (h : VueInv s.vue) :
    VueInv (rstep compiler rt s e).vue := by
  cases e with
  | evInit => exact h
  | evP1 => exact getVueClassPhase1_inv s h
  | evP2 paths => exact getVueClassPhase2_inv compiler rt paths s h

/-- Any interleaving of atomic steps preserves the invariant. -/
theorem runEvents_inv (compiler : String → PluginMod) (rt : String → Nat)
    (evs : List REv) :
    ∀ s : RState, VueInv s.vue → VueInv (runEvents compiler rt s evs).vue := by
  induction evs with
  | nil => intro s h; exact h
  | cons e evs ih => intro s h; exact ih _ (rstep_inv compiler rt s e h)

/-- The boot registry satisfies the invariant. -/
theorem vueBoot_inv : VueInv vueBoot := by
  constructor
  · decide
  · decide

/-- C1: across any interleaving of (re-)init and concurrent `getVueClass`
segments from a freshly constructed renderer, every plugin identity is
actually installed at most once; and once the class reference is memoized,
every subsequent `getVueClass` call returns it with no installation and no
state change at all. -/
theorem getVueClass_installs_at_most_once :
    ∀ (compiler : String → PluginMod) (rt : String → Nat) (u : UserOptions)
      (evs : List REv) (x : Nat),
      (runEvents compiler rt (newRenderer u) evs).vue.log.count x ≤ 1
      ∧ ∀ s : RState, s.memoVue = true →
          getVueClassPhase1 s = (s, Phase1Out.memoHit) := by
  intro compiler rt u evs x
  constructor
  · have hinv := runEvents_inv compiler rt evs (newRenderer u) vueBoot_inv
    exact List.nodup_iff_count_le_one.mp hinv.1 x
  · intro s h
    simp [getVueClassPhase1, h]

/-- C1 witness: the statement at concrete inputs. -/
theorem getVueClass_installs_at_most_once_witness :
    (runEvents compilerEx rtEx (newRenderer uEx)
        [REv.evP1, REv.evP2 ["a", "b"], REv.evP1]).vue.log.count 1 ≤ 1
    ∧ getVueClassPhase1 memoStateEx = (memoStateEx, Phase1Out.memoHit) :=
  ⟨(getVueClass_installs_at_most_once compilerEx rtEx uEx
      [REv.evP1, REv.evP2 ["a", "b"], REv.evP1] 1).1,
   (getVueClass_installs_at_most_once compilerEx rtEx uEx [] 1).2
      memoStateEx rfl⟩

/-- After an upstream error the transform never reacts again. -/
theorem transStep_frozen (h t : String) (st : TransState) (e : UpEvent)
    (he : st.errored = true) : transStep h t st e = st := by
  unfold transStep
  rw [if_pos (Or.inr he)]

/-- After an upstream error no further events change the transform. -/
theorem foldl_frozen (h t : String) (evs : List UpEvent) :
    ∀ st : TransState, st.errored = true →
      evs.foldl (transStep h t) st = st := by
  induction evs with
  | nil => intro st _; rfl
  | cons e evs ih =>
      intro st he
      have h1 : transStep h t st e = st := transStep_frozen h t st e he
      calc (e :: evs).foldl (transStep h t) st
          = evs.foldl (transStep h t) (transStep h t st e) := rfl
        _ = evs.foldl (transStep h t) st := by rw [h1]
        _ = st := ih st he

/-- Once the head fragment is out, a run of chunks passes through unmodified
and in order. -/
theorem foldl_chunks (h t : String) (cs : List String) :
    ∀ st : TransState, st.headSent = true → st.closed = false →
      st.errored = false →
      (cs.map UpEvent.chunk).foldl (transStep h t) st
        = { st with out := st.out ++ cs } := by
  induction cs with
  | nil => intro st _ _ _; simp
  | cons c cs ih =>
      intro st h1 h2 h3
      have hcond : ¬ (st.closed = true ∨ st.errored = true) := by
        simp [h2, h3]
      have hstep : transStep h t st (UpEvent.chunk c)
          = { st with out := st.out ++ [c] } := by
        unfold transStep
        rw [if_neg hcond]
        simp [h1]
      calc ((c :: cs).map UpEvent.chunk).foldl (transStep h t) st
          = (cs.map UpEvent.chunk).foldl (transStep h t)
              (transStep h t st (UpEvent.chunk c)) := rfl
        _ = (cs.map UpEvent.chunk).foldl (transStep h t)
              { st with out := st.out ++ [c] } := by rw [hstep]
        _ = { st with out := (st.out ++ [c]) ++ cs } := ih _ h1 h2 h3
        _ = { st with out := st.out ++ (c :: cs) } := by simp

/-- C2: the transform emits the head fragment before the first chunk, passes
all chunks through in order, and emits the tail after a clean end-of-stream;
on an upstream error it forwards the error and never emits the tail, whatever
events follow. -/
theorem streamTransform_head_body_tail :
    ∀ (h t : String) (cs pre : List String) (rest : List UpEvent),
      cs ≠ [] → pre ≠ [] →
      (transRun h t (cs.map UpEvent.chunk ++ [UpEvent.endOk])).out
          = h :: (cs ++ [t])
      ∧ (transRun h t (cs.map UpEvent.chunk ++ [UpEvent.endOk])).errored = false
      ∧ (transRun h t (pre.map UpEvent.chunk ++ UpEvent.fail :: rest)).out
          = h :: pre
      ∧ (transRun h t (pre.map UpEvent.chunk ++ UpEvent.fail :: rest)).errored
          = true := by
  intro h t cs pre rest hcs hpre
  obtain ⟨c, cs', rfl⟩ : ∃ c cs', cs = c :: cs' := by
    cases cs with
    | nil => exact absurd rfl hcs
    | cons a b => exact ⟨a, b, rfl⟩
  obtain ⟨p, pre', rfl⟩ : ∃ p pre', pre = p :: pre' := by
    cases pre with
    | nil => exact absurd rfl hpre
    | cons a b => exact ⟨a, b, rfl⟩
  have hfirst : ∀ c0 : String, transStep h t transInit (UpEvent.chunk c0)
      = { headSent := true, out := [h, c0], errored := false, closed := false } := by
    intro c0
    simp [transStep, transInit]
  have hclean : transRun h t ((c :: cs').map UpEvent.chunk ++ [UpEvent.endOk])
      = { headSent := true, out := ([h, c] ++ cs') ++ [t], errored := false
          closed := true } := by
    unfold transRun
    rw [List.foldl_append]
    have hchunks : ((c :: cs').map UpEvent.chunk).foldl (transStep h t) transInit
        = { headSent := true, out := [h, c] ++ cs', errored := false
            closed := false } := by
      calc ((c :: cs').map UpEvent.chunk).foldl (transStep h t) transInit
          = (cs'.map UpEvent.chunk).foldl (transStep h t)
              (transStep h t transInit (UpEvent.chunk c)) := rfl
        _ = (cs'.map UpEvent.chunk).foldl (transStep h t)
              { headSent := true, out := [h, c], errored := false
                closed := false } := by rw [hfirst]
        _ = { headSent := true, out := [h, c] ++ cs', errored := false
              closed := false } := foldl_chunks h t cs' _ rfl rfl rfl
    rw [hchunks]
    simp [transStep]
  have hfail : transRun h t ((p :: pre').map UpEvent.chunk ++ UpEvent.fail :: rest)
      = { headSent := true, out := [h, p] ++ pre', errored := true
          closed := false } := by
    unfold transRun
    rw [List.foldl_append]
    have hchunks : ((p :: pre').map UpEvent.chunk).foldl (transStep h t) transInit
        = { headSent := true, out := [h, p] ++ pre', errored := false
            closed := false } := by
      calc ((p :: pre').map UpEvent.chunk).foldl (transStep h t) transInit
          = (pre'.map UpEvent.chunk).foldl (transStep h t)
              (transStep h t transInit (UpEvent.chunk p)) := rfl
        _ = (pre'.map UpEvent.chunk).foldl (transStep h t)
              { headSent := true, out := [h, p], errored := false
                closed := false } := by rw [hfirst]
        _ = { headSent := true, out := [h, p] ++ pre', errored := false
              closed := false } := foldl_chunks h t pre' _ rfl rfl rfl
    rw [hchunks]
    have hfailstep : transStep h t
        { headSent := true, out := [h, p] ++ pre', errored := false
          closed := false } UpEvent.fail
        = { headSent := true, out := [h, p] ++ pre', errored := true
            closed := false } := by
      simp [transStep]
    calc (UpEvent.fail :: rest).foldl (transStep h t)
          { headSent := true, out := [h, p] ++ pre', errored := false
            closed := false }
        = rest.foldl (transStep h t)
            { headSent := true, out := [h, p] ++ pre', errored := true
              closed := false } := by rw [show (UpEvent.fail :: rest).foldl (transStep h t) { headSent := true, out := [h, p] ++ pre', errored := false, closed := false } = rest.foldl (transStep h t) (transStep h t { headSent := true, out := [h, p] ++ pre', errored := false, closed := false } UpEvent.fail) from rfl, hfailstep]
      _ = { headSent := true, out := [h, p] ++ pre', errored := true
            closed := false } := foldl_frozen h t rest _ rfl
  refine ⟨?_, ?_, ?_, ?_⟩
  · rw [hclean]; simp
  · rw [hclean]
  · rw [hfail]; simp
  · rw [hfail]

/-- C2 witness: the spec's concrete examples, via the theorem. -/
theorem streamTransform_head_body_tail_witness :
    (transRun "H" "T" [UpEvent.chunk "x", UpEvent.chunk "y", UpEvent.endOk]).out
        = ["H", "x", "y", "T"]
    ∧ (transRun "H" "T" [UpEvent.chunk "x", UpEvent.fail]).out = ["H", "x"]
    ∧ (transRun "H" "T" [UpEvent.chunk "x", UpEvent.fail]).errored = true := by
  have h := streamTransform_head_body_tail "H" "T" ["x", "y"] ["x"] []
    (by decide) (by decide)
  exact ⟨by simpa using h.1, by simpa using h.2.2.1, by simpa using h.2.2.2⟩

/-- The head fragment splits off the document-type declaration. -/
theorem getTemplateHtml_head_split (m : MetaInject) (s g : Obj) :
    (getTemplateHtml m s g).head
      = "<!DOCTYPE html>" ++ ("\n<html " ++ m.htmlAttrsText ++ ">\n<head>\n"
          ++ m.metaText ++ "\n" ++ m.titleText ++ "\n" ++ m.linkText ++ "\n"
          ++ m.styleText ++ "\n" ++ m.scriptText ++ "\n" ++ m.noscriptText
          ++ "\n</head>\n<body " ++ m.bodyAttrsText ++ ">\n  ") := by
  have h1 : ("<!DOCTYPE html>\n<html " : String)
      = "<!DOCTYPE html>" ++ "\n<html " := by decide
  simp only [getTemplateHtml]
  conv_lhs => rw [h1]
  simp only [String.append_assoc]

/-- The tail fragment splits off the closing html tag. -/
theorem getTemplateHtml_tail_split (m : MetaInject) (s g : Obj) :
    (getTemplateHtml m s g).tail
      = ("\n" ++ m.scriptBodyText ++ "</body>\n") ++ "</html>" := by
  have h1 : ("</body>\n</html>" : String) = "</body>\n" ++ "</html>" := by decide
  simp only [getTemplateHtml]
  conv_lhs => rw [h1]
  simp only [String.append_assoc]

/-- C4: a successful non-plain `renderToString` resolves with
`head ++ body ++ tail` — the raw body verbatim between the fragments — and
that document begins with the doctype and ends with the closing html tag; a
plain call resolves with exactly the raw body. -/
theorem renderToString_document_wrapping :
    ∀ (path : String) (stateArg : Option Obj) (opts : Option RenderOpts)
      (globals : Obj) (c : Component) (body : String),
      (isPlainOpt opts = true →
        renderToStringModel path stateArg opts globals (POutcome.resolved c)
            (Except.ok body) = POutcome.resolved body)
      ∧ (isPlainOpt opts = false →
        (renderToStringModel path stateArg opts globals (POutcome.resolved c)
            (Except.ok body)
          = POutcome.resolved
              ((getTemplateHtml c.meta (mkContext stateArg opts).state globals).head
                ++ body
                ++ (getTemplateHtml c.meta (mkContext stateArg opts).state globals).tail))
        ∧ (∃ r, (getTemplateHtml c.meta (mkContext stateArg opts).state globals).head
              ++ body
              ++ (getTemplateHtml c.meta (mkContext stateArg opts).state globals).tail
            = "<!DOCTYPE html>" ++ r)
        ∧ (∃ q, (getTemplateHtml c.meta (mkContext stateArg opts).state globals).head
              ++ body
              ++ (getTemplateHtml c.meta (mkContext stateArg opts).state globals).tail
            = q ++ "</html>")) := by
  intro path stateArg opts globals c body
  constructor
  · intro hp
    simp [renderToStringModel, hp]
  · intro hp
    refine ⟨?_, ?_, ?_⟩
    · simp [renderToStringModel, hp]
    · refine ⟨("\n<html " ++ c.meta.htmlAttrsText ++ ">\n<head>\n"
          ++ c.meta.metaText ++ "\n" ++ c.meta.titleText ++ "\n"
          ++ c.meta.linkText ++ "\n" ++ c.meta.styleText ++ "\n"
          ++ c.meta.scriptText ++ "\n" ++ c.meta.noscriptText
          ++ "\n</head>\n<body " ++ c.meta.bodyAttrsText ++ ">\n  ")
          ++ body
          ++ (getTemplateHtml c.meta (mkContext stateArg opts).state globals).tail, ?_⟩
      rw [getTemplateHtml_head_split]
      simp only [String.append_assoc]
    · refine ⟨(getTemplateHtml c.meta (mkContext stateArg opts).state globals).head
          ++ body ++ ("\n" ++ c.meta.scriptBodyText ++ "</body>\n"), ?_⟩
      rw [getTemplateHtml_tail_split]
      simp only [String.append_assoc]

/-- C4 witness: the statement at concrete inputs. -/
theorem renderToString_document_wrapping_witness :
    renderToStringModel "p" none (some { url := none, plain := true }) []
        (POutcome.resolved compEx) (Except.ok "BODY") = POutcome.resolved "BODY"
    ∧ ∃ r, (getTemplateHtml compEx.meta (mkContext none none).state []).head
        ++ "BODY"
        ++ (getTemplateHtml compEx.meta (mkContext none none).state []).tail
        = "<!DOCTYPE html>" ++ r := by
  refine ⟨?_, ?_⟩
  · exact (renderToString_document_wrapping "p" none
      (some { url := none, plain := true }) [] compEx "BODY").1 rfl
  · exact ((renderToString_document_wrapping "p" none none [] compEx "BODY").2
      rfl).2.1
